import Mathlib

/-!
Verification development for the data-ingestion pipeline of
`notebooks/2_data_ingestion.ipynb` (multimodal RAG on slide decks).

The notebook converts per-page images and per-page texts of a slide deck into
enriched, embedded records and POSTs them to an OpenSearch ingestion endpoint,
also writing a local JSON audit copy per artifact.  The embedding below models
the per-artifact functions (`get_img_desc`, `get_img_txt_embeddings`,
`process_image_data`, `get_continuous_chunks`, `process_text_data`) and the two
driver loops (the chunked Ray loop for images, the sequential loop for texts)
as pure Lean functions over explicit remote-response environments, recording
the externally visible actions (model invocations, local file writes, ingestion
POSTs) as an event trace.
-/

set_option maxHeartbeats 1000000

namespace SlideIngest

/-- The double-quote character `"` (code 34). -/
def dquote : Char := Char.ofNat 34

/-- The single-quote character (code 39). -/
def squote : Char := Char.ofNat 39

/-- One character of Python `s.replace('"', "'")`. -/
def replChar (c : Char) : Char := if c = dquote then squote else c

/-- Python `s.replace('"', "'")` (single-character pattern, so character-wise). -/
def replaceQuotes (s : String) : String := String.mk (s.data.map replChar)

/-- Python `sep.join(l)`. -/
def joinWith (sep : String) : List String → String
  | [] => ""
  | [s] => s
  | s :: rest => s ++ sep ++ joinWith sep rest

/-- Strip the literal pattern `p` from the front of `s`; `none` when `s` does
not start with `p`. -/
def dropPre : List Char → List Char → Option (List Char)
  | [], s => some s
  | _ :: _, [] => none
  | p :: ps, c :: cs => if c = p then dropPre ps cs else none

/-- One anchored attempt of the regex `<p>(\d+)_?` at the current position:
the literal pattern `p` followed by at least one digit; group 1 is the maximal
digit run (the trailing optional underscore does not affect the group). -/
def matchPage (p s : List Char) : Option (List Char) :=
  match dropPre p s with
  | none => none
  | some rest =>
    match rest.takeWhile Char.isDigit with
    | [] => none
    | d :: ds => some (d :: ds)

/-- `re.search(r"<p>(\d+)_?", s).group(1)` as used by the notebook: scan for
the leftmost position where the pattern followed by a digit matches and return
the digit group; `none` models `re.search` returning `None` (after which
`.group(1)` raises `AttributeError` in the source). -/
def searchGroup (p : List Char) : List Char → Option (List Char)
  | [] => none
  | c :: cs =>
    match matchPage p (c :: cs) with
    | some ds => some ds
    | none => searchGroup p cs

/-- `True` iff the list does not start with a digit (used to delimit the digit
group of the filename pattern). -/
def headNotDigit : List Char → Bool
  | [] => true
  | c :: _ => !c.isDigit

/-! Configuration values (from `globals.py` / `config.yaml`, which are outside
this snapshot).  Their concrete values are opaque runtime configuration; the
claims do not depend on them, only on how they are spliced into records. -/

def bucketName : String := "mmrag-bucket"

def IMAGE_FILE_EXTN : String := ".jpg"

def TEXT_FILE_EXTN : String := ".txt"

def bucketImgDir : String := "img"

def bucketTextDir : String := "txt"

def jsonImgDir : String := "json_img"

def jsonTextDir : String := "json_txt"

/-- The literal part of the image page-number regex `page_(\d+)_?`. -/
def pagePattern : String := "page_"

/-- The literal part of the text page-number regex `text_(\d+)_?`. -/
def textPattern : String := "text_"

/-- The entity-extraction prompt read from the prompt template file. -/
def entityInstruction : String := "entity-extraction-instruction"

/-- The image-description prompt read from the prompt template file. -/
def descInstruction : String := "image-description-instruction"

/-- A Bedrock Claude response as consumed by `get_img_desc`: the `text` fields
of `resp_body['content']`.  An `Except.error` environment value models the
`invoke_model` call (or response parsing) raising. -/
structure ClaudeResp where
  content : List String
deriving DecidableEq

/-- A Bedrock Titan embeddings response as consumed by
`get_img_txt_embeddings`: `response_body.get('embedding')` is `none` when the
`embedding` field is absent. -/
structure EmbedResp where
  embedding : Option (List Int)
deriving DecidableEq

/-- `get_img_desc`: invoke the model, read `content[0]['text']`, replace every
double quote by a single quote.  An erroring call propagates; an empty
`content` list makes the `[0]` subscript raise (modelled as `.error`). -/
def get_img_desc (resp : Except String ClaudeResp) : Except String String :=
  match resp with
  | .error e => .error e
  | .ok r =>
    match r.content with
    | [] => .error "IndexError"
    | t :: _ => .ok (replaceQuotes t)

/-- `get_img_txt_embeddings`: any exception from the call or response parsing
is caught and yields `None`; a well-formed response missing the `embedding`
field also yields `None` via `.get('embedding')`. -/
def get_img_txt_embeddings (resp : Except String EmbedResp) : Option (List Int) :=
  match resp with
  | .error _ => none
  | .ok r => r.embedding

/-- The JSON value stored under `page_number` in a POSTed record: the image
pipeline stores a string (regex group), the text pipeline stores the integer
loop counter `txt_page_index`. -/
inductive PageJson where
  | str : String → PageJson
  | num : Int → PageJson
deriving DecidableEq

/-- The `metadata` object of a POSTed record. -/
structure RecordMetadata where
  filename : String
  entities : String
deriving DecidableEq

/-- One element of the JSON array POSTed to the OpenSearch ingestion endpoint. -/
structure IngestRecord where
  file_path : String
  file_text : String
  page_number : PageJson
  metadata : RecordMetadata
  vector_embedding : Option (List Int)
deriving DecidableEq

/-- The local JSON audit object written per artifact. -/
structure LocalJson where
  file_type : String
  file_name : String
  text : String
  entities : String
  page_number : String
deriving DecidableEq

/-- Externally visible actions of one pipeline run, in program order:
a generative-model invocation (with its prompt), an embedding-model
invocation, a local audit-file write, an ingestion POST. -/
inductive Event where
  | claudeCall : String → Event
  | embedCall : Event
  | writeLocal : String → LocalJson → Event
  | post : IngestRecord → Event
deriving DecidableEq

/-- One image artifact together with its remote environment: the stem of the
local base64 file, the two Claude responses (entity extraction first, then
description), the embedding response, and whether the ingestion POST succeeds
(`false` models `requests.request` raising). -/
structure ImageFile where
  stem : String
  entityResp : Except String ClaudeResp
  descResp : Except String ClaudeResp
  embedResp : Except String EmbedResp
  ingestOk : Bool

/-- `process_image_data`: the whole body runs inside `try`; any exception is
caught, logged, and makes the function return `None` (note that the `except`
clause resets `json_data` to `None` even when the local audit file was already
written).  Returns the function's return value together with the trace of
external actions that happened before the return. -/
def process_image_data (f : ImageFile) : Option LocalJson × List Event :=
  match get_img_desc f.entityResp with
  | .error _ => (none, [.claudeCall entityInstruction])
  | .ok entities_extracted =>
    match get_img_desc f.descResp with
    | .error _ => (none, [.claudeCall entityInstruction, .claudeCall descInstruction])
    | .ok desc =>
      let content_description := entities_extracted ++ desc
      let embedding := get_img_txt_embeddings f.embedResp
      let obj_name := f.stem ++ IMAGE_FILE_EXTN
      match searchGroup pagePattern.data obj_name.data with
      | none => (none, [.claudeCall entityInstruction, .claudeCall descInstruction, .embedCall])
      | some ds =>
        let record : IngestRecord := {
          file_path := "s3://" ++ bucketName ++ "/" ++ bucketImgDir ++ "/" ++ f.stem ++ IMAGE_FILE_EXTN,
          file_text := content_description,
          page_number := PageJson.str (String.mk ds),
          metadata := { filename := obj_name, entities := entities_extracted },
          vector_embedding := embedding }
        let jd : LocalJson := {
          file_type := IMAGE_FILE_EXTN,
          file_name := obj_name,
          text := content_description,
          entities := entities_extracted,
          page_number := String.mk ds }
        let evs : List Event := [.claudeCall entityInstruction, .claudeCall descInstruction,
          .embedCall, .writeLocal (jsonImgDir ++ "/" ++ f.stem ++ ".json") jd, .post record]
        if f.ingestOk then (some jd, evs) else (none, evs)

/-- The Python chunking `[lst[i:i + n] for i in range(0, len(lst), n)]`
(for `n ≥ 1`; the source never calls it with `n = 0`, where Python's `range`
raises). -/
def chunkList {α : Type} (n : Nat) : List α → List (List α)
  | [] => []
  | x :: xs => (x :: xs.take (n - 1)) :: chunkList n (xs.drop (n - 1))
termination_by l => l.length
decreasing_by simp [List.length_drop]; omega

/-- One chunk of the image driver loop: `ray.get` on one task per file; each
task runs `process_image_data`, which catches every exception internally, so
every task yields a result and `ray.get` returns them in dispatch order. -/
def runImageChunk (chunk : List ImageFile) : List (Option LocalJson) :=
  chunk.map fun f => (process_image_data f).1

/-- The image driver loop.  `erroneous_page_count` starts at 0 and is
incremented (by the chunk length) only in the chunk-level `except` clause,
which fires only when `ray.get` re-raises a task's uncaught exception; since
`process_image_data` catches every per-artifact exception, that clause is
unreachable and the reported count stays 0. -/
def runImagePipeline (files : List ImageFile) (n : Nat) :
    List (Option LocalJson) × Nat :=
  (((chunkList n files).map runImageChunk).flatten, 0)

/-- Number of committed (non-`None`) per-artifact results. -/
def committedCount (results : List (Option LocalJson)) : Nat :=
  results.countP fun r => r.isSome

/-- One element of `ne_chunk(pos_tag(word_tokenize(text)))`: either a named
entity subtree (with its token strings) or a plain tagged word.  The nltk
tokenizer/tagger/chunker are external library calls; their output list is the
input of the loop under verification. -/
inductive NChunk where
  | tree : List String → NChunk
  | word : String → NChunk
deriving DecidableEq

/-- One iteration of the `get_continuous_chunks` loop body, acting on the pair
(`continuous_chunk`, `current_chunk`). -/
def gccStep (i : NChunk) (cc cur : List String) : List String × List String :=
  let cur' := match i with
    | NChunk.tree toks => cur ++ [joinWith " " toks]
    | NChunk.word _ => cur
  match cur' with
  | [] => (cc, [])
  | c :: cs =>
    let namedEntity := joinWith " " (c :: cs)
    if namedEntity ∈ cc then (cc, c :: cs) else (cc ++ [namedEntity], [])

/-- The `for i in chunked` loop of `get_continuous_chunks`. -/
def gccLoop : List NChunk → List String → List String → List String
  | [], cc, _ => cc
  | i :: rest, cc, cur => gccLoop rest (gccStep i cc cur).1 (gccStep i cc cur).2

/-- `get_continuous_chunks` applied to the (externally produced) chunk list. -/
def get_continuous_chunks (chunked : List NChunk) : List String :=
  gccLoop chunked [] []

/-- The per-subtree entity strings, in order: the flattening of each contiguous
named-entity span, before any deduplication. -/
def entitySpans (chunked : List NChunk) : List String :=
  chunked.filterMap fun c => match c with
    | NChunk.tree toks => some (joinWith " " toks)
    | NChunk.word _ => none

/-- Deduplication by exact string value keeping the first occurrence of each
value (the reading of the specification's description of the extractor's
output). -/
def dedupFirstSeen (l : List String) : List String :=
  l.foldl (fun acc s => if s ∈ acc then acc else acc ++ [s]) []

/-- Modelled from the spec: `utils.get_text_embedding` is imported from a
module that is not part of this snapshot; the specification's Embedding
Generator contract is `embed(text) -> EmbeddingVector | Unavailable`, returning
the sentinel on any remote failure (timeout, malformed response, missing
`embedding` field) rather than raising. -/
def get_text_embedding (resp : Except String EmbedResp) : Option (List Int) :=
  match resp with
  | .error _ => none
  | .ok r => r.embedding

/-- One text artifact together with its environment: the file stem, the raw
text read from the file, the nltk chunking of that text, the embedding
response, and whether the ingestion POST succeeds. -/
structure TextFile where
  stem : String
  content : String
  chunked : List NChunk
  embedResp : Except String EmbedResp
  ingestOk : Bool

/-- `process_text_data`: unlike the image variant there is no `try`/`except`;
a `None` result models an exception escaping the function (the only raising
steps are `.group(1)` on a non-matching filename — reached before the local
write — and the ingestion POST).  The event list is the trace of external
actions that happened before the return or the raise. -/
def process_text_data (tf : TextFile) (txt_page_index : Int) :
    Option LocalJson × List Event :=
  let entities := get_continuous_chunks tf.chunked
  let entities_str := joinWith ", " entities
  let embedding := get_text_embedding tf.embedResp
  let obj_name := tf.stem ++ TEXT_FILE_EXTN
  let record : IngestRecord := {
    file_path := "s3://" ++ bucketName ++ "/" ++ bucketTextDir ++ "/" ++ tf.stem ++ TEXT_FILE_EXTN,
    file_text := tf.content,
    page_number := PageJson.num txt_page_index,
    metadata := { filename := obj_name, entities := entities_str },
    vector_embedding := embedding }
  match searchGroup textPattern.data obj_name.data with
  | none => (none, [Event.embedCall])
  | some ds =>
    let jd : LocalJson := {
      file_type := TEXT_FILE_EXTN,
      file_name := tf.stem,
      text := tf.content,
      entities := entities_str,
      page_number := String.mk ds }
    let evs : List Event := [Event.embedCall,
      Event.writeLocal (jsonTextDir ++ "/" ++ tf.stem ++ ".json") jd, Event.post record]
    if tf.ingestOk then (some jd, evs) else (none, evs)

/-- The text driver loop: `txt_page_index` starts at 1 and increments per
file; there is no exception handler, so a raise inside `process_text_data`
aborts the loop (the `Bool` is `true` iff the loop ran to completion). -/
def runTextFiles : List TextFile → Int → List Event × Bool
  | [], _ => ([], true)
  | tf :: rest, idx =>
    match process_text_data tf idx with
    | (none, evs) => (evs, false)
    | (some _, evs) =>
      let r := runTextFiles rest (idx + 1)
      (evs ++ r.1, r.2)

/-- The text pipeline entry point (`txt_page_index: int = 1`). -/
def runTextPipeline (files : List TextFile) : List Event × Bool :=
  runTextFiles files 1

/-- The prompts of the generative-model invocations in a trace, in order. -/
def claudeTrace (evs : List Event) : List String :=
  evs.filterMap fun e => match e with
    | Event.claudeCall p => some p
    | _ => none

/-- The records POSTed to the ingestion endpoint in a trace, in order. -/
def postedRecords (evs : List Event) : List IngestRecord :=
  evs.filterMap fun e => match e with
    | Event.post r => some r
    | _ => none

/-- The local audit-file writes in a trace, in order (path and content). -/
def writeEvents (evs : List Event) : List (String × LocalJson) :=
  evs.filterMap fun e => match e with
    | Event.writeLocal f j => some (f, j)
    | _ => none

/-! ## Helper lemmas -/

theorem dropPre_append (p s : List Char) : dropPre p (p ++ s) = some s := by
  induction p with
  | nil => rfl
  | cons c cs ih => simp [dropPre, ih]

theorem takeWhile_digits (ds rest : List Char)
    (hds : ∀ c ∈ ds, c.isDigit = true) (hr : headNotDigit rest = true) :
    (ds ++ rest).takeWhile Char.isDigit = ds := by
  induction ds with
  | nil =>
    rcases rest with _ | ⟨c, cs⟩
    · rfl
    · simp [headNotDigit] at hr
      simp [List.takeWhile, hr]
  | cons d ds ih =>
    have hd : d.isDigit = true := hds d (by simp)
    simp only [List.cons_append, List.takeWhile_cons, hd]
    simp only [if_true]
    rw [ih (fun c hc => hds c (by simp [hc]))]

/-- When the scanned string is exactly the pattern followed by a nonempty digit
run and a digit-free-headed remainder, the regex search returns that digit run
as group 1. -/
theorem searchGroup_starts (p ds rest : List Char) (hp : p ≠ [])
    (hne : ds ≠ []) (hds : ∀ c ∈ ds, c.isDigit = true)
    (hr : headNotDigit rest = true) :
    searchGroup p (p ++ ds ++ rest) = some ds := by
  have hmatch : matchPage p (p ++ ds ++ rest) = some ds := by
    unfold matchPage
    rw [List.append_assoc, dropPre_append]
    dsimp only
    rw [takeWhile_digits ds rest hds hr]
    rcases ds with _ | ⟨d, ds'⟩
    · exact absurd rfl hne
    · rfl
  rcases hp' : p ++ ds ++ rest with _ | ⟨c, cs⟩
  · rcases p with _ | _
    · exact absurd rfl hp
    · simp at hp'
  · rw [searchGroup]
    rw [← hp', hmatch]

theorem chunkList_flatten {α : Type} (n : Nat) (l : List α) :
    (chunkList n l).flatten = l := by
  induction l using chunkList.induct n with
  | case1 => simp [chunkList]
  | case2 x xs ih =>
    rw [chunkList]
    simp only [List.flatten_cons, List.cons_append]
    rw [ih]
    simp [List.take_append_drop]

theorem chunkList_length_le {α : Type} (n : Nat) (h : 1 ≤ n) (l : List α) :
    ∀ c ∈ chunkList n l, c.length ≤ n := by
  induction l using chunkList.induct n with
  | case1 => simp [chunkList]
  | case2 x xs ih =>
    rw [chunkList]
    intro c hc
    rcases List.mem_cons.mp hc with rfl | hc
    · simp [List.length_take]
      omega
    · exact ih c hc

theorem chunkList_dropLast_full {α : Type} (n : Nat) (h : 1 ≤ n) (l : List α) :
    ∀ c ∈ (chunkList n l).dropLast, c.length = n := by
  induction l using chunkList.induct n with
  | case1 => simp [chunkList]
  | case2 x xs ih =>
    rw [chunkList]
    rcases hr : chunkList n (xs.drop (n - 1)) with _ | ⟨c0, rest⟩
    · simp
    · rw [List.dropLast_cons_of_ne_nil (by simp)]
      intro c hc
      rcases List.mem_cons.mp hc with rfl | hc
      · have hne : xs.drop (n - 1) ≠ [] := by
          intro hnil
          rw [hnil] at hr
          simp [chunkList] at hr
        have hlen : n - 1 < xs.length := by
          by_contra hle
          push_neg at hle
          exact hne (List.drop_eq_nil_of_le hle)
        simp [List.length_take]
        omega
      · rw [← hr] at hc
        exact ih c hc

theorem flatten_map_length {α β : Type} (g : α → β) (L : List (List α)) :
    ((L.map fun c => c.map g).flatten).length = L.flatten.length := by
  induction L with
  | nil => rfl
  | cons c cs ih => simp [ih]

/-- The image driver yields one per-artifact result per input file, for every
batch size: no artifact aborts its batch or its siblings. -/
theorem runImagePipeline_length (files : List ImageFile) (n : Nat) :
    (runImagePipeline files n).1.length = files.length := by
  show ((chunkList n files).map runImageChunk).flatten.length = files.length
  unfold runImageChunk
  rw [flatten_map_length]
  rw [chunkList_flatten]

theorem gccStep_nodup (i : NChunk) (cc cur : List String) (h : cc.Nodup) :
    (gccStep i cc cur).1.Nodup := by
  unfold gccStep
  rcases i with toks | t <;> simp only []
  · rcases hcur : cur ++ [joinWith " " toks] with _ | ⟨c, cs⟩
    · simp at hcur
    · simp only [hcur]
      split
      · exact h
      · next hmem =>
        simp [List.nodup_append, h, hmem]
  · rcases cur with _ | ⟨c, cs⟩
    · exact h
    · simp only []
      split
      · exact h
      · next hmem =>
        simp [List.nodup_append, h, hmem]

theorem gccLoop_nodup (l : List NChunk) :
    ∀ cc cur : List String, cc.Nodup → (gccLoop l cc cur).Nodup := by
  induction l with
  | nil => intro cc cur h; exact h
  | cons i rest ih =>
    intro cc cur h
    rw [gccLoop]
    exact ih _ _ (gccStep_nodup i cc cur h)

/-- The output of `get_continuous_chunks` never contains the same string
twice (the membership test guards every append). -/
theorem gcc_nodup (chunked : List NChunk) : (get_continuous_chunks chunked).Nodup :=
  gccLoop_nodup chunked [] [] List.nodup_nil

theorem joinWith_single (sep s : String) : joinWith sep [s] = s := rfl

theorem gccLoop_spans (l : List NChunk) :
    ∀ cc : List String, (cc ++ entitySpans l).Nodup →
      gccLoop l cc [] = cc ++ entitySpans l := by
  induction l with
  | nil => intro cc h; simp [gccLoop, entitySpans]
  | cons i rest ih =>
    intro cc h
    rcases i with toks | t
    · have hspans : entitySpans (NChunk.tree toks :: rest)
          = joinWith " " toks :: entitySpans rest := by
        simp [entitySpans]
      rw [hspans] at h
      have hnotmem : joinWith " " toks ∉ cc := by
        intro hmem
        have := (List.nodup_append.mp h).2.2
        exact this hmem (by simp)
      rw [gccLoop]
      have hstep : gccStep (NChunk.tree toks) cc [] =
          (cc ++ [joinWith " " toks], []) := by
        unfold gccStep
        simp [joinWith_single, hnotmem]
      rw [hstep]
      simp only []
      rw [ih (cc ++ [joinWith " " toks]) (by simpa using h)]
      simp [hspans]
    · have hspans : entitySpans (NChunk.word t :: rest) = entitySpans rest := by
        simp [entitySpans]
      rw [gccLoop]
      have hstep : gccStep (NChunk.word t) cc [] = (cc, []) := by
        unfold gccStep
        simp
      rw [hstep]
      rw [hspans] at h
      rw [ih cc h, hspans]

/-- On inputs whose contiguous entity spans are pairwise distinct, the loop
returns exactly those spans, in order. -/
theorem gcc_spans (chunked : List NChunk) (h : (entitySpans chunked).Nodup) :
    get_continuous_chunks chunked = entitySpans chunked := by
  have := gccLoop_spans chunked [] (by simpa using h)
  simpa using this

theorem replChar_ne_dquote (c : Char) : replChar c ≠ dquote := by
  unfold replChar
  split
  · decide
  · next h => exact h

theorem replaceQuotes_no_dquote (s : String) : dquote ∉ (replaceQuotes s).data := by
  intro hmem
  unfold replaceQuotes at hmem
  simp only [String.mk] at hmem
  rcases List.mem_map.mp hmem with ⟨c, _, hc⟩
  exact replChar_ne_dquote c hc

theorem get_img_desc_no_dquote (r : Except String ClaudeResp) (t : String)
    (h : get_img_desc r = .ok t) : dquote ∉ t.data := by
  rcases r with m | c
  · simp [get_img_desc] at h
  · rcases hc : c.content with _ | ⟨t0, ts⟩
    · rw [get_img_desc, hc] at h
      simp at h
    · rw [get_img_desc, hc] at h
      dsimp only at h
      rcases h with ⟨⟩ | _
      exact replaceQuotes_no_dquote t0

/-! ## Concrete inputs used by the claim theorems -/

/-- A Claude environment response whose single content block is `t`. -/
def okResp (t : String) : Except String ClaudeResp := Except.ok ⟨[t]⟩

/-- A text artifact whose processing succeeds end to end (no entities, a
present embedding, a succeeding POST). -/
def mkTextFile (stem content : String) : TextFile :=
  ⟨stem, content, [], Except.ok ⟨some [7]⟩, true⟩

/-- Batch for the fault-isolation scenario: the second image's
entity-extraction call raises, the other two succeed end to end. -/
def c1File1 : ImageFile :=
  ⟨"page_1", okResp "E1", okResp "D1", Except.ok ⟨some [1]⟩, true⟩

def c1File2 : ImageFile :=
  ⟨"page_2", Except.error "Bedrock timeout", okResp "D2", Except.ok ⟨some [2]⟩, true⟩

def c1File3 : ImageFile :=
  ⟨"page_3", okResp "E3", okResp "D3", Except.ok ⟨some [3]⟩, true⟩

theorem c1_chunk : chunkList 3 [c1File1, c1File2, c1File3] = [[c1File1, c1File2, c1File3]] := by
  simp [chunkList.eq_def]

/-- Text batch with a non-matching filename between two matching ones. -/
def c2Files : List TextFile :=
  [mkTextFile "text_1" "alpha", mkTextFile "notes" "beta", mkTextFile "text_2" "gamma"]

/-- An image artifact that succeeds end to end (page 7). -/
def c2ImgOk : ImageFile :=
  ⟨"page_7", okResp "E", okResp "D", Except.ok ⟨some [1]⟩, true⟩

/-- The end-to-end text scenario: three matching text files, distinct content. -/
def c3Files : List TextFile :=
  [mkTextFile "text_1" "alpha", mkTextFile "text_2" "beta", mkTextFile "text_3" "gamma"]

/-- An image artifact whose embedding response is well-formed but lacks the
`embedding` field. -/
def c5File : ImageFile :=
  ⟨"page_5", okResp "E5", okResp "D5", Except.ok ⟨none⟩, true⟩

/-- An image artifact whose entity-extraction call raises. -/
def c6File : ImageFile :=
  ⟨"page_6", Except.error "ThrottlingException", okResp "D6", Except.ok ⟨some [1]⟩, true⟩

/-- An image artifact whose ingestion POST raises. -/
def c8File : ImageFile :=
  ⟨"page_9", okResp "E9", okResp "D9", Except.ok ⟨some [9]⟩, false⟩

/-- Chunker output with a duplicated entity span: named entities A, B, A, C. -/
def c7Input : List NChunk :=
  [NChunk.tree ["A"], NChunk.tree ["B"], NChunk.tree ["A"], NChunk.tree ["C"]]

/-- Chunker output with pairwise-distinct entity spans. -/
def c7Distinct : List NChunk :=
  [NChunk.tree ["New", "York"], NChunk.word "x", NChunk.tree ["Bob"]]

/-! ## Claim theorems -/

/-- C1: the claim's fault-isolation half holds (a per-artifact exception is
caught at the task boundary, every sibling still yields a result, and the
batch completes with n−1 committed records), but its summary half fails on the
code: `erroneous_page_count` is incremented only in the chunk-level `except`
clause, which a caught per-artifact exception never reaches, so the final
summary reports 0 failures — not exactly one — for a batch in which exactly
one artifact raised.  Evaluated at a 3-image batch whose second artifact's
extraction call raises. -/
theorem c1_failure_count_stays_zero :
    (runImagePipeline [c1File1, c1File2, c1File3] 3).2 = 0 ∧
    committedCount (runImagePipeline [c1File1, c1File2, c1File3] 3).1 = 2 ∧
    (runImagePipeline [c1File1, c1File2, c1File3] 3).1.map Option.isSome
      = [true, false, true] ∧
    (∀ (files : List ImageFile) (n : Nat),
      (runImagePipeline files n).1.length = files.length) := by
  refine ⟨rfl, ?_, ?_, runImagePipeline_length⟩
  · rw [runImagePipeline, c1_chunk]
    rfl
  · rw [runImagePipeline, c1_chunk]
    rfl

/-- C2 counterexample: for text artifacts the claimed "non-fatal to the batch"
is false.  In a batch of three text files where only the middle one has a
non-matching filename, the `.group(1)` call raises an uncaught
`AttributeError`, the driver loop (which has no handler) aborts, and the
third, well-named file is never processed: only one POST and one audit write
happen and the loop does not complete. -/
theorem c2_nonmatching_text_aborts_batch :
    (runTextPipeline c2Files).2 = false ∧
    (postedRecords (runTextPipeline c2Files).1).length = 1 ∧
    (writeEvents (runTextPipeline c2Files).1).length = 1 := ⟨rfl, rfl, rfl⟩

/-- C2 amended: for a filename of shape `<pattern><digits>...` the extracted
page number equals the digit group (conjunct 1), and the image pipeline's
record carries it (conjunct 2); a non-matching image filename fails that
artifact deterministically with no record and no write, the exception being
caught inside `process_image_data` so the batch continues (conjuncts 3–4).
For text artifacts the matching case writes the digit group into the local
audit record (conjunct 5), but a non-matching text filename raises *uncaught*:
that artifact produces no record and no write, and the driver loop aborts,
processing none of the remaining artifacts (conjunct 6). -/
theorem c2_page_number_extraction :
    (∀ p ds rest : List Char, p ≠ [] → ds ≠ [] →
       (∀ c ∈ ds, c.isDigit = true) → headNotDigit rest = true →
       searchGroup p (p ++ ds ++ rest) = some ds) ∧
    (∀ (f : ImageFile) (e d : String) (ds : List Char),
       get_img_desc f.entityResp = .ok e → get_img_desc f.descResp = .ok d →
       searchGroup pagePattern.data (f.stem ++ IMAGE_FILE_EXTN).data = some ds →
       ∃ r, postedRecords (process_image_data f).2 = [r] ∧
         r.page_number = PageJson.str (String.mk ds)) ∧
    (∀ (f : ImageFile) (e d : String),
       get_img_desc f.entityResp = .ok e → get_img_desc f.descResp = .ok d →
       searchGroup pagePattern.data (f.stem ++ IMAGE_FILE_EXTN).data = none →
       process_image_data f = (none, [.claudeCall entityInstruction,
         .claudeCall descInstruction, .embedCall])) ∧
    (∀ chunk : List ImageFile, (runImageChunk chunk).length = chunk.length) ∧
    (∀ (tf : TextFile) (idx : Int) (ds : List Char),
       searchGroup textPattern.data (tf.stem ++ TEXT_FILE_EXTN).data = some ds →
       ∃ jd r, (process_text_data tf idx).2 = [Event.embedCall,
           Event.writeLocal (jsonTextDir ++ "/" ++ tf.stem ++ ".json") jd,
           Event.post r] ∧ jd.page_number = String.mk ds) ∧
    (∀ (tf : TextFile) (rest : List TextFile) (idx : Int),
       searchGroup textPattern.data (tf.stem ++ TEXT_FILE_EXTN).data = none →
       process_text_data tf idx = (none, [Event.embedCall]) ∧
       runTextFiles (tf :: rest) idx = ([Event.embedCall], false)) := by
  refine ⟨searchGroup_starts, ?_, ?_, ?_, ?_, ?_⟩
  · intro f e d ds h1 h2 hpg
    unfold process_image_data
    rw [h1, h2]
    dsimp only
    rw [hpg]
    dsimp only
    rcases f.ingestOk with _ | _
    · exact ⟨_, rfl, rfl⟩
    · exact ⟨_, rfl, rfl⟩
  · intro f e d h1 h2 hng
    unfold process_image_data
    rw [h1, h2]
    dsimp only
    rw [hng]
  · intro chunk
    simp [runImageChunk]
  · intro tf idx ds hpg
    unfold process_text_data
    dsimp only
    rw [hpg]
    dsimp only
    rcases tf.ingestOk with _ | _
    · exact ⟨_, _, rfl, rfl⟩
    · exact ⟨_, _, rfl, rfl⟩
  · intro tf rest idx hng
    have h : process_text_data tf idx = (none, [Event.embedCall]) := by
      unfold process_text_data
      dsimp only
      rw [hng]
    exact ⟨h, by rw [runTextFiles, h]⟩

/-- C2 witness: the amended theorem applied at concrete inputs — the digit
group `4` is extracted from `page_4.jpg`, the fully succeeding image artifact
`c2ImgOk` posts page number `"7"`, and a text batch headed by the
non-matching `notes.txt` aborts immediately. -/
theorem c2_page_number_extraction_witness :
    searchGroup "page_".data ("page_".data ++ ['4'] ++ ".jpg".data) = some ['4'] ∧
    (∃ r, postedRecords (process_image_data c2ImgOk).2 = [r] ∧
       r.page_number = PageJson.str "7") ∧
    runTextFiles [mkTextFile "notes" "beta"] 1 = ([Event.embedCall], false) :=
  ⟨c2_page_number_extraction.1 "page_".data ['4'] ".jpg".data
     (by decide) (by decide) (by decide) (by decide),
   c2_page_number_extraction.2.1 c2ImgOk "E" "D" ['7'] rfl rfl rfl,
   (c2_page_number_extraction.2.2.2.2.2 (mkTextFile "notes" "beta") [] 1 rfl).2⟩

/-- C3 counterexample: the three ingested records do NOT carry the strings
`"1"`, `"2"`, `"3"` as `page_number` — the POSTed payload uses the integer
loop counter `txt_page_index`, so they carry the JSON numbers 1, 2, 3. -/
theorem c3_page_number_is_loop_index :
    ((postedRecords (runTextPipeline c3Files).1).map IngestRecord.page_number)
      = [PageJson.num 1, PageJson.num 2, PageJson.num 3] ∧
    ((postedRecords (runTextPipeline c3Files).1).map IngestRecord.page_number)
      ≠ [PageJson.str "1", PageJson.str "2", PageJson.str "3"] :=
  ⟨rfl, by decide⟩

/-- C3 amended: for the three text artifacts `text_1.txt`, `text_2.txt`,
`text_3.txt` with distinct content, the pipeline runs to completion, produces
exactly three local audit files (named after the stems, carrying the strings
`"1"`, `"2"`, `"3"` extracted from the filename digits), and issues exactly
three ingestion POSTs — whose `page_number` values are the integers 1, 2, 3
(the loop index, equal in value to each filename's digits in listing order)
rather than strings. -/
theorem c3_three_audit_files_and_posts :
    (runTextPipeline c3Files).2 = true ∧
    (writeEvents (runTextPipeline c3Files).1).map Prod.fst
      = [jsonTextDir ++ "/text_1.json", jsonTextDir ++ "/text_2.json",
         jsonTextDir ++ "/text_3.json"] ∧
    ((writeEvents (runTextPipeline c3Files).1).map fun p => p.2.page_number)
      = ["1", "2", "3"] ∧
    (postedRecords (runTextPipeline c3Files).1).length = 3 ∧
    ((postedRecords (runTextPipeline c3Files).1).map IngestRecord.page_number)
      = [PageJson.num 1, PageJson.num 2, PageJson.num 3] :=
  ⟨rfl, rfl, rfl, rfl, rfl⟩

/-- C4: for every input sequence and every batch size n ≥ 1, the Python
chunking `[lst[i:i + n] for i in range(0, len(lst), n)]` yields contiguous
slices whose concatenation reproduces the input exactly, each of length at
most n, every chunk but the last of length exactly n. -/
theorem c4_chunk_partition (n : Nat) (h : 1 ≤ n) {α : Type} (l : List α) :
    (chunkList n l).flatten = l ∧
    (∀ c ∈ chunkList n l, c.length ≤ n) ∧
    (∀ c ∈ (chunkList n l).dropLast, c.length = n) :=
  ⟨chunkList_flatten n l, chunkList_length_le n h l, chunkList_dropLast_full n h l⟩

/-- C4 witness: the partition property at batch size 2 on a five-element
list. -/
theorem c4_chunk_partition_witness :
    (chunkList 2 [10, 20, 30, 40, 50]).flatten = [10, 20, 30, 40, 50] ∧
    (∀ c ∈ chunkList 2 [10, 20, 30, 40, 50], c.length ≤ 2) ∧
    (∀ c ∈ (chunkList 2 [10, 20, 30, 40, 50]).dropLast, c.length = 2) :=
  c4_chunk_partition 2 (by decide) [10, 20, 30, 40, 50]

/-- C5: when the embedding is unavailable — the call raised, or the response
lacks the `embedding` field — `get_img_txt_embeddings` returns the `None`
sentinel instead of raising (conjuncts 1–2), and an artifact whose embedding
came back `None` is still fully processed: the record is assembled with a
`None` vector, the local audit copy is written, the POST is issued, and the
function returns the assembled data (a success, not a failure) (conjunct 3). -/
theorem c5_unavailable_embedding_still_ingested :
    (∀ m : String, get_img_txt_embeddings (Except.error m) = none) ∧
    (∀ r : EmbedResp, r.embedding = none → get_img_txt_embeddings (Except.ok r) = none) ∧
    (∀ (f : ImageFile) (e d : String) (ds : List Char),
       get_img_desc f.entityResp = .ok e → get_img_desc f.descResp = .ok d →
       get_img_txt_embeddings f.embedResp = none →
       searchGroup pagePattern.data (f.stem ++ IMAGE_FILE_EXTN).data = some ds →
       f.ingestOk = true →
       ∃ jd r, process_image_data f =
         (some jd,
          [.claudeCall entityInstruction, .claudeCall descInstruction, .embedCall,
           .writeLocal (jsonImgDir ++ "/" ++ f.stem ++ ".json") jd, .post r]) ∧
         r.vector_embedding = none) := by
  refine ⟨fun m => rfl, fun r hr => hr, ?_⟩
  intro f e d ds h1 h2 hemb hpg hok
  unfold process_image_data
  rw [h1, h2]
  dsimp only
  rw [hpg, hemb, hok]
  dsimp only
  exact ⟨_, _, rfl, rfl⟩

/-- C5 witness: the artifact `c5File`, whose embedding response is well-formed
but missing the `embedding` field, is still assembled, written locally, and
POSTed with a `None` vector. -/
theorem c5_unavailable_embedding_still_ingested_witness :
    ∃ jd r, process_image_data c5File =
      (some jd,
       [.claudeCall entityInstruction, .claudeCall descInstruction, .embedCall,
        .writeLocal (jsonImgDir ++ "/" ++ "page_5" ++ ".json") jd, .post r]) ∧
      r.vector_embedding = none :=
  c5_unavailable_embedding_still_ingested.2.2 c5File "E5" "D5" ['5']
    rfl rfl rfl rfl rfl

/-- C6: `get_img_desc` fails exactly when the remote call errors or the
response's content list is empty (conjunct 1); on a doubly successful
extraction the generative model is invoked exactly twice — once with the
entity-extraction prompt, then once with the description prompt (conjunct 2) —
and the posted content is the concatenation with the entity text strictly
ahead of the description (conjunct 3); an extraction failure stops that
artifact with no further action (conjunct 4) while every sibling of its batch
still yields a result (conjunct 5). -/
theorem c6_image_extractor_contract :
    (∀ r : Except String ClaudeResp,
       (∃ m, get_img_desc r = .error m) ↔
         ((∃ m, r = .error m) ∨ ∃ c, r = .ok c ∧ c.content = [])) ∧
    (∀ (f : ImageFile) (e d : String),
       get_img_desc f.entityResp = .ok e → get_img_desc f.descResp = .ok d →
       claudeTrace (process_image_data f).2 = [entityInstruction, descInstruction]) ∧
    (∀ (f : ImageFile) (e d : String) (ds : List Char),
       get_img_desc f.entityResp = .ok e → get_img_desc f.descResp = .ok d →
       searchGroup pagePattern.data (f.stem ++ IMAGE_FILE_EXTN).data = some ds →
       ∃ r, postedRecords (process_image_data f).2 = [r] ∧
         r.file_text = e ++ d ∧ r.metadata.entities = e) ∧
    (∀ (f : ImageFile) (m : String),
       get_img_desc f.entityResp = .error m →
       process_image_data f = (none, [.claudeCall entityInstruction])) ∧
    (∀ chunk : List ImageFile, (runImageChunk chunk).length = chunk.length) := by
  refine ⟨?_, ?_, ?_, ?_, ?_⟩
  · intro r
    rcases r with m | c
    · simp [get_img_desc]
    · rcases hc : c.content with _ | ⟨t, ts⟩
      · simp [get_img_desc, hc]
      · simp [get_img_desc, hc]
  · intro f e d h1 h2
    unfold process_image_data
    rw [h1, h2]
    dsimp only
    rcases searchGroup pagePattern.data (f.stem ++ IMAGE_FILE_EXTN).data with _ | ds
    · rfl
    · dsimp only
      rcases f.ingestOk with _ | _ <;> rfl
  · intro f e d ds h1 h2 hpg
    unfold process_image_data
    rw [h1, h2]
    dsimp only
    rw [hpg]
    dsimp only
    rcases f.ingestOk with _ | _
    · exact ⟨_, rfl, rfl, rfl⟩
    · exact ⟨_, rfl, rfl, rfl⟩
  · intro f m h
    unfold process_image_data
    rw [h]
  · intro chunk
    simp [runImageChunk]

/-- C6 witness: the succeeding artifact `c2ImgOk` invokes the model exactly
twice with the two prompts in order, and the artifact `c6File`, whose entity
call raises, stops after one invocation with no record. -/
theorem c6_image_extractor_contract_witness :
    claudeTrace (process_image_data c2ImgOk).2 = [entityInstruction, descInstruction] ∧
    process_image_data c6File = (none, [.claudeCall entityInstruction]) :=
  ⟨c6_image_extractor_contract.2.1 c2ImgOk "E" "D" rfl rfl,
   c6_image_extractor_contract.2.2.2.1 c6File "ThrottlingException" rfl⟩

/-- C7 counterexample: on the entity-span sequence A, B, A, C the source loop
does not return the first-seen deduplication [A, B, C]: the duplicate A is
retained in `current_chunk` (the reset is skipped on the `else` branch) and is
merged with the following span, producing [A, B, "A C"] — a string that is the
flattening of no contiguous entity span. -/
theorem c7_duplicate_entity_merges_into_next :
    get_continuous_chunks c7Input = ["A", "B", "A C"] ∧
    dedupFirstSeen (entitySpans c7Input) = ["A", "B", "C"] ∧
    get_continuous_chunks c7Input ≠ dedupFirstSeen (entitySpans c7Input) :=
  ⟨rfl, rfl, by decide⟩

/-- C7 amended: the extractor yields an empty list on empty input (conjunct 1)
and its output is always exactly deduplicated (conjunct 2); whenever the
flattened contiguous entity spans are pairwise distinct the output is exactly
those spans in first-seen order (conjunct 3) — but when a span repeats, the
duplicate is retained in the accumulator and merged into the following span
rather than simply dropped (see the counterexample). -/
theorem c7_entity_extraction_amended :
    get_continuous_chunks [] = [] ∧
    (∀ chunked : List NChunk, (get_continuous_chunks chunked).Nodup) ∧
    (∀ chunked : List NChunk, (entitySpans chunked).Nodup →
       get_continuous_chunks chunked = entitySpans chunked) :=
  ⟨rfl, gcc_nodup, gcc_spans⟩

/-- C7 witness: on distinct spans "New York" and "Bob" the output is exactly
the flattened spans in order. -/
theorem c7_entity_extraction_amended_witness :
    (entitySpans c7Distinct).Nodup ∧
    get_continuous_chunks c7Distinct = entitySpans c7Distinct :=
  ⟨by decide, c7_entity_extraction_amended.2.2 c7Distinct (by decide)⟩

/-- C8: once a record is assembled (extraction succeeded and the page number
parsed), the trace of an image artifact is exactly two model calls, one
embedding call, one local audit write, then one ingestion POST — and that of a
text artifact is one embedding call, one local write, then one POST.  In both
pipelines the trace (hence the audit write keyed by the artifact stem) does
not depend on whether the POST succeeds, and the single write precedes the
single POST. -/
theorem c8_audit_write_before_post :
    (∀ (f : ImageFile) (e d : String) (ds : List Char),
       get_img_desc f.entityResp = .ok e → get_img_desc f.descResp = .ok d →
       searchGroup pagePattern.data (f.stem ++ IMAGE_FILE_EXTN).data = some ds →
       ∃ jd r, (process_image_data f).2 =
         [.claudeCall entityInstruction, .claudeCall descInstruction, .embedCall,
          .writeLocal (jsonImgDir ++ "/" ++ f.stem ++ ".json") jd, .post r]) ∧
    (∀ (tf : TextFile) (idx : Int) (ds : List Char),
       searchGroup textPattern.data (tf.stem ++ TEXT_FILE_EXTN).data = some ds →
       ∃ jd r, (process_text_data tf idx).2 =
         [Event.embedCall,
          Event.writeLocal (jsonTextDir ++ "/" ++ tf.stem ++ ".json") jd,
          Event.post r]) := by
  constructor
  · intro f e d ds h1 h2 hpg
    unfold process_image_data
    rw [h1, h2]
    dsimp only
    rw [hpg]
    dsimp only
    rcases f.ingestOk with _ | _
    · exact ⟨_, _, rfl⟩
    · exact ⟨_, _, rfl⟩
  · intro tf idx ds hpg
    unfold process_text_data
    dsimp only
    rw [hpg]
    dsimp only
    rcases tf.ingestOk with _ | _
    · exact ⟨_, _, rfl⟩
    · exact ⟨_, _, rfl⟩

/-- C8 witness: the artifact `c8File`, whose ingestion POST raises, still has
exactly one audit write, placed before the POST attempt. -/
theorem c8_audit_write_before_post_witness :
    ∃ jd r, (process_image_data c8File).2 =
      [.claudeCall entityInstruction, .claudeCall descInstruction, .embedCall,
       .writeLocal (jsonImgDir ++ "/" ++ "page_9" ++ ".json") jd, .post r] :=
  c8_audit_write_before_post.1 c8File "E9" "D9" ['9'] rfl rfl rfl

/-- C9: text entity extraction is a deterministic function of its input — two
runs on the same chunker output yield the same list — and that list is an
exactly deduplicated entity list (no hidden state influences the output in
this model, which threads no state through `get_continuous_chunks`). -/
theorem c9_text_extraction_deterministic :
    ∀ chunked : List NChunk,
      get_continuous_chunks chunked = get_continuous_chunks chunked ∧
      (get_continuous_chunks chunked).Nodup :=
  fun chunked => ⟨rfl, gcc_nodup chunked⟩

/-- C10: every string successfully produced by `get_img_desc` is free of the
double-quote character (each `"` of the raw model response is replaced by `'`
before use), and consequently the posted record of a successfully processed
image artifact has a double-quote-free `file_text` and
`metadata.entities`. -/
theorem c10_no_double_quote :
    (∀ (r : Except String ClaudeResp) (t : String),
       get_img_desc r = .ok t → dquote ∉ t.data) ∧
    (∀ (f : ImageFile) (e d : String) (ds : List Char),
       get_img_desc f.entityResp = .ok e → get_img_desc f.descResp = .ok d →
       searchGroup pagePattern.data (f.stem ++ IMAGE_FILE_EXTN).data = some ds →
       ∃ r, postedRecords (process_image_data f).2 = [r] ∧
         dquote ∉ r.file_text.data ∧ dquote ∉ r.metadata.entities.data) := by
  constructor
  · exact get_img_desc_no_dquote
  · intro f e d ds h1 h2 hpg
    have he : dquote ∉ e.data := get_img_desc_no_dquote f.entityResp e h1
    have hd : dquote ∉ d.data := get_img_desc_no_dquote f.descResp d h2
    have hed : dquote ∉ (e ++ d).data := by
      rw [String.data_append]
      intro hmem
      rcases List.mem_append.mp hmem with hmem | hmem
      · exact he hmem
      · exact hd hmem
    unfold process_image_data
    rw [h1, h2]
    dsimp only
    rw [hpg]
    dsimp only
    rcases f.ingestOk with _ | _
    · exact ⟨_, rfl, hed, he⟩
    · exact ⟨_, rfl, hed, he⟩

/-- C10 witness: a raw model response containing a double quote yields, after
processing, a posted record with quote-free text and entities. -/
theorem c10_no_double_quote_witness :
    ∃ r, postedRecords (process_image_data
        ⟨"page_8", Except.ok ⟨[String.mk ['x', Char.ofNat 34, 'y']]⟩,
         Except.ok ⟨[String.mk ['u', Char.ofNat 34, 'v']]⟩,
         Except.ok ⟨some [1]⟩, true⟩).2 = [r] ∧
      dquote ∉ r.file_text.data ∧ dquote ∉ r.metadata.entities.data :=
  c10_no_double_quote.2
    ⟨"page_8", Except.ok ⟨[String.mk ['x', Char.ofNat 34, 'y']]⟩,
     Except.ok ⟨[String.mk ['u', Char.ofNat 34, 'v']]⟩,
     Except.ok ⟨some [1]⟩, true⟩
    (String.mk ['x', Char.ofNat 39, 'y']) (String.mk ['u', Char.ofNat 39, 'v'])
    ['8'] rfl rfl rfl

end SlideIngest
